import Mathlib

/-!
Shallow embedding of the PlayMusic local media-library API server
(src/server/index.js): two flat collections (tracks, videos) kept in
memory and mirrored to JSON files, with Express route handlers for
list / get / create / delete / search.

JavaScript values that matter to the handlers are modelled explicitly:
a field that may be absent (undefined) or null is an Option; JS string
truthiness (the empty string is falsy) is strFalsy; case-insensitive
substring search is charwise toLower plus list containment.  Effects are
made explicit: handlers take the freshly generated id, the clock string
and a writeOk flag (whether the synchronous file write succeeds) as
parameters and return the HTTP response, the new state (in-memory list
plus backing-file content) and whether a persistence error was logged.
-/

namespace PlayMusic

/-- JS truthiness test for an optional string field: `!x` is true when the
field is absent (undefined / null) or the empty string. -/
def strFalsy : Option String → Bool
  | none => true
  | some s => s == ""

/-- Models the JS expression `x || null` for an optional string field:
falsy values collapse to null. -/
def strOrNull : Option String → Option String
  | none => none
  | some s => if s == "" then none else some s

/-- Models the JS expression `x || null` for an optional numeric field:
0 is falsy and collapses to null. -/
def intOrNull : Option Int → Option Int
  | none => none
  | some d => if d == 0 then none else some d

/-- Models JS String.prototype.toLowerCase as a charwise lowercase map. -/
def jsToLower (s : String) : String := ⟨s.data.map Char.toLower⟩

/-- Helper for substring containment: does the list start with the needle? -/
def startsWithL : List Char → List Char → Bool
  | _, [] => true
  | [], _ :: _ => false
  | a :: hs, b :: ns => a == b && startsWithL hs ns

/-- Containment of a needle anywhere in a haystack list.  Models JS
String.prototype.includes after both sides are turned into char lists. -/
def containsL : List Char → List Char → Bool
  | [], need => startsWithL [] need
  | h :: t, need => startsWithL (h :: t) need || containsL t need

/-- Models the JS expression `hay.includes(need)`. -/
def jsIncludes (hay need : String) : Bool := containsL hay.data need.data

/-- Source function generateId: the current time in milliseconds and the
value of Math.floor(Math.random() * 10000), joined by a dash.  The two
numbers are parameters of the model because they are read from the clock
and the random generator. -/
def generateId (nowMs rand : Nat) : String :=
  toString nowMs ++ "-" ++ toString rand

/-- A Track record as stored in memory.  Records loaded from disk may be
missing any field, so every field is optional; records built by the POST
handler always carry id, url and title. -/
structure Track where
  id : Option String
  url : Option String
  title : Option String
  artist : Option String
  artwork : Option String
  playlist : Option (List String)
  rating : Option Int
deriving Repr, DecidableEq

/-- The body of a POST /tracks request, restricted to the fields the
handler destructures. -/
structure TrackBody where
  url : Option String
  title : Option String
  artist : Option String
  artwork : Option String
deriving Repr, DecidableEq

/-- A Video record as stored in memory; fields of records loaded from
disk may be missing, so every field is optional. -/
structure Video where
  id : Option String
  url : Option String
  localUri : Option String
  title : Option String
  thumbnail : Option String
  duration : Option Int
  createdAt : Option String
deriving Repr, DecidableEq

/-- The body of a POST /videos request: the fields the handler
destructures plus the remaining submitted key-value pairs, which the
handler never reads. -/
structure VideoBody where
  url : Option String
  localUri : Option String
  title : Option String
  thumbnail : Option String
  duration : Option Int
  extra : List (String × String)
deriving Repr, DecidableEq

/-- Content of a backing JSON file as the loader sees it: absent,
present but failing to parse, or parsed to a record array. -/
inductive FsFile (α : Type) where
  | absent
  | malformed
  | parsed (value : α)
deriving Repr, DecidableEq

/-- An HTTP response: a success status with a JSON payload, or an error
status with the message carried in the error body. -/
inductive ApiResult (α : Type) where
  | ok (status : Nat) (payload : α)
  | err (status : Nat) (message : String)
deriving Repr, DecidableEq

/-- State owned by the tracks resource: the in-memory array and the
content of server/data.json. -/
structure TracksState where
  tracks : List Track
  file : FsFile (List Track)
deriving Repr, DecidableEq

/-- State owned by the videos resource: the in-memory array and the
content of server/videos.json. -/
structure VideosState where
  videos : List Video
  file : FsFile (List Video)
deriving Repr, DecidableEq

/-- Source function saveTracks: try to write the full array to the
backing file; on failure log and swallow.  Returns the resulting file
content and whether an error was logged. -/
def saveTracks (writeOk : Bool) (tracks : List Track) (file : FsFile (List Track)) :
    FsFile (List Track) × Bool :=
  if writeOk then (FsFile.parsed tracks, false) else (file, true)

/-- Source function saveVideos, identical policy to saveTracks. -/
def saveVideos (writeOk : Bool) (videos : List Video) (file : FsFile (List Video)) :
    FsFile (List Video) × Bool :=
  if writeOk then (FsFile.parsed videos, false) else (file, true)

/-- The seed mapping step of loadTracks, one entry: the JS object spread
`\x7b id: generateId(), ...t \x7d` puts the generated id first, so a field
named id already present on the seed entry overrides the generated one;
only entries with no id receive the fresh id. -/
def ensureId (genId : String) (t : Track) : Track :=
  { t with id := some (t.id.getD genId) }

/-- Source function loadTracks: return the parsed backing file if it
exists and parses; otherwise fall back to the bundled seed file, mapping
each entry through ensureId with a freshly generated id and writing the
result back; if that also fails, the empty array.  genId gives the id
generated for the seed entry at each position; writeOk tells whether the
write-back of the seeded array succeeds (if it throws, the catch logs
and the function falls through to the empty array).  The second
component is the content written back to the persisted file, none when
no write happened. -/
def loadTracks (genId : Nat → String) (writeOk : Bool)
    (dataFile seedFile : FsFile (List Track)) : List Track × Option (List Track) :=
  match dataFile with
  | FsFile.parsed ts => (ts, none)
  | _ =>
    match seedFile with
    | FsFile.parsed arr =>
      let mapped := arr.enum.map (fun p => ensureId (genId p.1) p.2)
      if writeOk then (mapped, some mapped) else ([], none)
    | _ => ([], none)

/-- Source function loadVideos: the parsed backing file if present and
parsable, otherwise the empty array (no seed fallback for videos). -/
def loadVideos (dataFile : FsFile (List Video)) : List Video :=
  match dataFile with
  | FsFile.parsed vs => vs
  | _ => []

/-- Removal of the first element satisfying a predicate, together with
that element: models `findIndex` followed by `splice(idx, 1)`.  Returns
none when no element matches. -/
def removeFirst {α : Type} (p : α → Bool) : List α → Option (α × List α)
  | [] => none
  | x :: xs =>
    if p x then some (x, xs)
    else
      match removeFirst p xs with
      | none => none
      | some (r, rest) => some (r, x :: rest)

/-- Handler GET /tracks: the full in-memory array. -/
def listTracksHandler (s : TracksState) : ApiResult (List Track) :=
  ApiResult.ok 200 s.tracks

/-- Handler GET /tracks/:id: first record whose id strictly equals the
path parameter (a string), else 404. -/
def getTrackHandler (pathId : String) (s : TracksState) : ApiResult Track :=
  match s.tracks.find? (fun x => x.id == some pathId) with
  | none => ApiResult.err 404 "Not found"
  | some t => ApiResult.ok 200 t

/-- The object literal built by the POST /tracks handler: the generated
id plus the four destructured body fields (playlist and rating are never
set by the handler). -/
def mkTrack (newId : String) (body : TrackBody) : Track :=
  { id := some newId, url := body.url, title := body.title,
    artist := body.artist, artwork := body.artwork,
    playlist := none, rating := none }

/-- Handler POST /tracks: reject falsy url or title with 400, otherwise
build the record from the destructured fields plus a generated id,
append it, save, and answer 201 with the record. -/
def postTracksHandler (newId : String) (writeOk : Bool) (body : TrackBody)
    (s : TracksState) : ApiResult Track × TracksState × Bool :=
  if strFalsy body.url || strFalsy body.title then
    (ApiResult.err 400 "url and title are required", s, false)
  else
    let t := mkTrack newId body
    let mem := s.tracks ++ [t]
    let saved := saveTracks writeOk mem s.file
    (ApiResult.ok 201 t, { tracks := mem, file := saved.1 }, saved.2)

/-- Handler DELETE /tracks/:id: findIndex then splice; 404 when the id
is absent, otherwise save and answer 200 with the removed record. -/
def deleteTrackHandler (pathId : String) (writeOk : Bool) (s : TracksState) :
    ApiResult Track × TracksState × Bool :=
  match removeFirst (fun x => x.id == some pathId) s.tracks with
  | none => (ApiResult.err 404 "Not found", s, false)
  | some (removed, rest) =>
    let saved := saveTracks writeOk rest s.file
    (ApiResult.ok 200 removed, { tracks := rest, file := saved.1 }, saved.2)

/-- The track search predicate from GET /tracks/search: case-insensitive
substring match of the already-lowercased query against title, artist,
url, or any playlist entry, with optional chaining making an absent
field non-matching. -/
def trackMatches (query : String) (t : Track) : Bool :=
  (match t.title with
   | none => false
   | some s => jsIncludes (jsToLower s) query) ||
  (match t.artist with
   | none => false
   | some s => jsIncludes (jsToLower s) query) ||
  (match t.url with
   | none => false
   | some s => jsIncludes (jsToLower s) query) ||
  (match t.playlist with
   | none => false
   | some ps => ps.any (fun p => jsIncludes (jsToLower p) query))

/-- Handler GET /tracks/search?q=: lowercase the q parameter (an absent
parameter becomes the empty string); an empty query answers the empty
array; otherwise filter the collection by trackMatches. -/
def searchTracksHandler (qParam : Option String) (s : TracksState) :
    ApiResult (List Track) :=
  let query := (qParam.map jsToLower).getD ""
  if query == "" then ApiResult.ok 200 []
  else ApiResult.ok 200 (s.tracks.filter (trackMatches query))

/-- Handler GET /videos: the full in-memory array. -/
def listVideosHandler (s : VideosState) : ApiResult (List Video) :=
  ApiResult.ok 200 s.videos

/-- Handler GET /videos/:id. -/
def getVideoHandler (pathId : String) (s : VideosState) : ApiResult Video :=
  match s.videos.find? (fun x => x.id == some pathId) with
  | none => ApiResult.err 404 "Not found"
  | some v => ApiResult.ok 200 v

/-- The object literal built by the POST /videos handler: generated id,
falsy optional fields collapsed to null, and the current ISO timestamp
as createdAt.  Submitted fields outside the destructured five are
dropped. -/
def mkVideo (newId nowIso : String) (body : VideoBody) : Video :=
  { id := some newId, url := strOrNull body.url,
    localUri := strOrNull body.localUri, title := body.title,
    thumbnail := strOrNull body.thumbnail,
    duration := intOrNull body.duration, createdAt := some nowIso }

/-- Handler POST /videos: 400 when url and localUri are both falsy, then
400 when title is falsy; otherwise build the record with mkVideo,
append it, save, and answer 201 with the record. -/
def postVideosHandler (newId nowIso : String) (writeOk : Bool) (body : VideoBody)
    (s : VideosState) : ApiResult Video × VideosState × Bool :=
  if strFalsy body.url && strFalsy body.localUri then
    (ApiResult.err 400 "url or localUri is required", s, false)
  else if strFalsy body.title then
    (ApiResult.err 400 "title is required", s, false)
  else
    let v := mkVideo newId nowIso body
    let mem := s.videos ++ [v]
    let saved := saveVideos writeOk mem s.file
    (ApiResult.ok 201 v, { videos := mem, file := saved.1 }, saved.2)

/-- Handler DELETE /videos/:id. -/
def deleteVideoHandler (pathId : String) (writeOk : Bool) (s : VideosState) :
    ApiResult Video × VideosState × Bool :=
  match removeFirst (fun x => x.id == some pathId) s.videos with
  | none => (ApiResult.err 404 "Not found", s, false)
  | some (removed, rest) =>
    let saved := saveVideos writeOk rest s.file
    (ApiResult.ok 200 removed, { videos := rest, file := saved.1 }, saved.2)

/-- The video search predicate from GET /videos/search: title or url. -/
def videoMatches (query : String) (v : Video) : Bool :=
  (match v.title with
   | none => false
   | some s => jsIncludes (jsToLower s) query) ||
  (match v.url with
   | none => false
   | some s => jsIncludes (jsToLower s) query)

/-- Handler GET /videos/search?q=. -/
def searchVideosHandler (qParam : Option String) (s : VideosState) :
    ApiResult (List Video) :=
  let query := (qParam.map jsToLower).getD ""
  if query == "" then ApiResult.ok 200 []
  else ApiResult.ok 200 (s.videos.filter (videoMatches query))

/-- Specification-side notion, written from the claim: a case-insensitive
substring match of the query occurs in the string, stated as a plain
decomposition of the lowercased character lists. -/
def lowerSub (q s : String) : Prop :=
  ∃ pre post, (jsToLower s).data = pre ++ (jsToLower q).data ++ post

/-- Specification-side notion: a match in an optional field, where a
missing or null field is non-matching rather than an error. -/
def optionFieldHit (q : String) : Option String → Prop
  | none => False
  | some s => lowerSub q s

/-- Specification-side notion, from the claim: a track matches the query
when a case-insensitive substring match occurs in title, artist, url, or
any playlist entry. -/
def trackSpecMatch (q : String) (t : Track) : Prop :=
  optionFieldHit q t.title ∨ optionFieldHit q t.artist ∨ optionFieldHit q t.url ∨
    (∃ ps, t.playlist = some ps ∧ ∃ p ∈ ps, lowerSub q p)

/-- Specification-side notion, from the claim: a video matches the query
when a case-insensitive substring match occurs in title or url. -/
def videoSpecMatch (q : String) (v : Video) : Prop :=
  optionFieldHit q v.title ∨ optionFieldHit q v.url

end PlayMusic

/-!
Generic lemmas about the list helpers, followed by one theorem (plus
witness or counterexample where applicable) for each specification
claim C1-C10.
-/

namespace PlayMusic

theorem startsWithL_iff (need : List Char) : ∀ (l : List Char),
    startsWithL l need = true ↔ ∃ rest, l = need ++ rest := by
  induction need with
  | nil => intro l; simp [startsWithL]
  | cons b bs ih =>
    intro l
    cases l with
    | nil => simp [startsWithL]
    | cons a as =>
      simp [startsWithL, ih, List.cons.injEq, exists_and_left]

theorem containsL_iff (need : List Char) : ∀ (hay : List Char),
    containsL hay need = true ↔ ∃ pre post, hay = pre ++ need ++ post := by
  intro hay
  induction hay with
  | nil =>
    simp [containsL, startsWithL_iff]
  | cons h t ih =>
    simp only [containsL, Bool.or_eq_true, startsWithL_iff, ih]
    constructor
    · rintro (⟨rest, hEq⟩ | ⟨pre, post, rfl⟩)
      · exact ⟨[], rest, by simpa using hEq⟩
      · exact ⟨h :: pre, post, rfl⟩
    · rintro ⟨pre, post, hEq⟩
      cases pre with
      | nil =>
        left
        exact ⟨post, by simpa using hEq⟩
      | cons x xs =>
        right
        rw [List.cons_append] at hEq
        injection hEq with h1 h2
        exact ⟨xs, post, h2⟩

theorem jsIncludes_iff (hay need : String) :
    jsIncludes hay need = true ↔ ∃ pre post, hay.data = pre ++ need.data ++ post :=
  containsL_iff need.data hay.data

theorem jsIncludes_lower_iff (s q : String) :
    jsIncludes (jsToLower s) (jsToLower q) = true ↔ lowerSub q s := by
  unfold lowerSub
  exact jsIncludes_iff (jsToLower s) (jsToLower q)

theorem jsToLower_eq_empty_iff (q : String) : jsToLower q = "" ↔ q = "" := by
  constructor
  · intro h
    have h1 : q.data.map Char.toLower = [] := congrArg String.data h
    have h2 : q.data = [] := List.map_eq_nil_iff.mp h1
    cases q with
    | mk data =>
      simp only at h2
      rw [h2]
  · rintro rfl
    rfl

theorem trackMatches_iff (q : String) (t : Track) :
    trackMatches (jsToLower q) t = true ↔ trackSpecMatch q t := by
  unfold trackMatches trackSpecMatch optionFieldHit
  cases t.title <;> cases t.artist <;> cases t.url <;> cases t.playlist <;>
    simp [jsIncludes_lower_iff, List.any_eq_true, exists_and_left, or_assoc]

theorem videoMatches_iff (q : String) (v : Video) :
    videoMatches (jsToLower q) v = true ↔ videoSpecMatch q v := by
  unfold videoMatches videoSpecMatch optionFieldHit
  cases v.title <;> cases v.url <;> simp [jsIncludes_lower_iff]

end PlayMusic

namespace PlayMusic

theorem removeFirst_eq_none_iff {α : Type} (p : α → Bool) (l : List α) :
    removeFirst p l = none ↔ ∀ x ∈ l, p x = false := by
  induction l with
  | nil => simp [removeFirst]
  | cons x xs ih =>
    by_cases hx : p x = true
    · simp [removeFirst, hx]
    · have hx' : p x = false := by revert hx; cases p x <;> simp
      simp only [removeFirst, hx', Bool.false_eq_true, if_false]
      cases h : removeFirst p xs with
      | none =>
        simp only [List.mem_cons]
        constructor
        · intro _ y hy
          rcases hy with rfl | hy'
          · exact hx'
          · exact (ih.mp h) y hy'
        · intro _
          trivial
      | some pr =>
        obtain ⟨r, rest⟩ := pr
        simp only [List.mem_cons]
        constructor
        · intro hcontra
          exact absurd hcontra (by simp)
        · intro hall
          have hnone : removeFirst p xs = none :=
            ih.mpr (fun y hy => hall y (Or.inr hy))
          rw [h] at hnone
          exact absurd hnone (by simp)

theorem removeFirst_eq_some {α : Type} (p : α → Bool) :
    ∀ (l : List α) (r : α) (rest : List α), removeFirst p l = some (r, rest) →
    ∃ l1 l2, l = l1 ++ r :: l2 ∧ rest = l1 ++ l2 ∧ (∀ x ∈ l1, p x = false) ∧ p r = true := by
  intro l
  induction l with
  | nil => intro r rest h; simp [removeFirst] at h
  | cons x xs ih =>
    intro r rest h
    by_cases hx : p x = true
    · simp only [removeFirst, hx, if_true, Option.some.injEq, Prod.mk.injEq] at h
      obtain ⟨rfl, rfl⟩ := h
      exact ⟨[], xs, rfl, rfl, by simp, hx⟩
    · have hx' : p x = false := by revert hx; cases p x <;> simp
      simp only [removeFirst, hx', Bool.false_eq_true, if_false] at h
      cases h2 : removeFirst p xs with
      | none =>
        rw [h2] at h
        exact absurd h (by simp)
      | some pr =>
        obtain ⟨r2, rest2⟩ := pr
        rw [h2] at h
        simp only [Option.some.injEq, Prod.mk.injEq] at h
        obtain ⟨h3, h4⟩ := h
        subst h3
        subst h4
        obtain ⟨l1, l2, hl, hr, hall, hpr⟩ := ih r2 rest2 h2
        refine ⟨x :: l1, l2, ?_, ?_, ?_, hpr⟩
        · rw [List.cons_append, hl]
        · rw [List.cons_append, hr]
        · intro y hy
          rcases List.mem_cons.mp hy with rfl | hy'
          · exact hx'
          · exact hall y hy'

theorem find?_append_single {α : Type} (p : α → Bool) (t : α) :
    ∀ (l : List α), (∀ x ∈ l, p x = false) →
    (l ++ [t]).find? p = if p t then some t else none := by
  intro l
  induction l with
  | nil =>
    intro _
    cases hpt : p t <;> simp [List.find?, hpt]
  | cons x xs ih =>
    intro h
    have hx := h x (List.mem_cons_self x xs)
    simp only [List.cons_append, List.find?, hx]
    exact ih (fun y hy => h y (List.mem_cons_of_mem x hy))

end PlayMusic

namespace PlayMusic

/-- C1: for both collections, an empty or absent query returns the empty
sequence even on a non-empty collection; a non-empty query returns
exactly the records with a case-insensitive substring match of the query
in one of the fixed fields (tracks: title, artist, url, any playlist
entry; videos: title, url), missing or null fields being non-matching,
and the result preserves insertion order. -/
theorem search_contract (q : String) (s : TracksState) (vs : VideosState) (hq : q ≠ "") :
    (searchTracksHandler none s = ApiResult.ok 200 [] ∧
     searchTracksHandler (some "") s = ApiResult.ok 200 [] ∧
     searchVideosHandler none vs = ApiResult.ok 200 [] ∧
     searchVideosHandler (some "") vs = ApiResult.ok 200 []) ∧
    (∃ res, searchTracksHandler (some q) s = ApiResult.ok 200 res ∧
       (∀ t, t ∈ res ↔ t ∈ s.tracks ∧ trackSpecMatch q t) ∧ res.Sublist s.tracks) ∧
    (∃ res, searchVideosHandler (some q) vs = ApiResult.ok 200 res ∧
       (∀ v, v ∈ res ↔ v ∈ vs.videos ∧ videoSpecMatch q v) ∧ res.Sublist vs.videos) := by
  have h1 : jsToLower q ≠ "" := fun h => hq ((jsToLower_eq_empty_iff q).mp h)
  have hq' : (jsToLower q == "") = false := beq_eq_false_iff_ne.mpr h1
  refine ⟨⟨rfl, rfl, rfl, rfl⟩, ?_, ?_⟩
  · refine ⟨s.tracks.filter (trackMatches (jsToLower q)), ?_, ?_, List.filter_sublist _⟩
    · simp [searchTracksHandler, hq']
    · intro t
      simp [List.mem_filter, trackMatches_iff]
  · refine ⟨vs.videos.filter (videoMatches (jsToLower q)), ?_, ?_, List.filter_sublist _⟩
    · simp [searchVideosHandler, hq']
    · intro v
      simp [List.mem_filter, videoMatches_iff]

theorem search_contract_witness :
    (searchTracksHandler (some "")
        { tracks := [⟨some "1", some "a.mp3", some "Hello World", none, none, none, none⟩],
          file := FsFile.absent } = ApiResult.ok 200 []) ∧
    (∃ res, searchTracksHandler (some "hello")
        { tracks := [⟨some "1", some "a.mp3", some "Hello World", none, none, none, none⟩],
          file := FsFile.absent } = ApiResult.ok 200 res ∧
       (∀ t, t ∈ res ↔
          t ∈ [(⟨some "1", some "a.mp3", some "Hello World", none, none, none, none⟩ : Track)] ∧
            trackSpecMatch "hello" t) ∧
       res.Sublist [⟨some "1", some "a.mp3", some "Hello World", none, none, none, none⟩]) := by
  have h := search_contract "hello"
    { tracks := [⟨some "1", some "a.mp3", some "Hello World", none, none, none, none⟩],
      file := FsFile.absent }
    { videos := [], file := FsFile.absent } (by decide)
  exact ⟨h.1.2.1, h.2.1⟩

end PlayMusic

namespace PlayMusic

/-- C2 counterexample: on a collection holding two records with the same
id, DELETE answers 200 yet the deleted id is still present in a
subsequent LIST, so the claim's absence conjunct fails as stated. -/
theorem delete_duplicate_id_cex :
    (deleteTrackHandler "a" true
        { tracks := [⟨some "a", none, some "x", none, none, none, none⟩,
                     ⟨some "a", none, some "y", none, none, none, none⟩],
          file := FsFile.absent }).1 =
      ApiResult.ok 200 ⟨some "a", none, some "x", none, none, none, none⟩ ∧
    some "a" ∈
      ((deleteTrackHandler "a" true
          { tracks := [⟨some "a", none, some "x", none, none, none, none⟩,
                       ⟨some "a", none, some "y", none, none, none, none⟩],
            file := FsFile.absent }).2.1.tracks.map Track.id) := by decide

/-- C2 (amended): DELETE with a present id removes exactly the first
record bearing it, answers 200 with the removed record, shrinks the
collection by one while keeping the relative order of the rest, and,
provided no second record bears the same id (it occurs at most once
among the collection's ids), the deleted id is absent afterwards;
DELETE with an absent id answers 404 with message Not found and leaves
the state unchanged.  Both collections. -/
theorem delete_contract (pathId : String) (writeOk : Bool) (s : TracksState)
    (vs : VideosState) :
    ((some pathId ∈ s.tracks.map Track.id →
        ∃ removed l1 l2,
          s.tracks = l1 ++ removed :: l2 ∧
          removed.id = some pathId ∧
          (∀ x ∈ l1, x.id ≠ some pathId) ∧
          (deleteTrackHandler pathId writeOk s).1 = ApiResult.ok 200 removed ∧
          (deleteTrackHandler pathId writeOk s).2.1.tracks = l1 ++ l2 ∧
          (deleteTrackHandler pathId writeOk s).2.1.tracks.length + 1 = s.tracks.length ∧
          ((s.tracks.map Track.id).count (some pathId) ≤ 1 →
            some pathId ∉ (deleteTrackHandler pathId writeOk s).2.1.tracks.map Track.id)) ∧
     (some pathId ∉ s.tracks.map Track.id →
        (deleteTrackHandler pathId writeOk s).1 = ApiResult.err 404 "Not found" ∧
        (deleteTrackHandler pathId writeOk s).2.1 = s)) ∧
    ((some pathId ∈ vs.videos.map Video.id →
        ∃ removed l1 l2,
          vs.videos = l1 ++ removed :: l2 ∧
          removed.id = some pathId ∧
          (∀ x ∈ l1, x.id ≠ some pathId) ∧
          (deleteVideoHandler pathId writeOk vs).1 = ApiResult.ok 200 removed ∧
          (deleteVideoHandler pathId writeOk vs).2.1.videos = l1 ++ l2 ∧
          (deleteVideoHandler pathId writeOk vs).2.1.videos.length + 1 = vs.videos.length ∧
          ((vs.videos.map Video.id).count (some pathId) ≤ 1 →
            some pathId ∉ (deleteVideoHandler pathId writeOk vs).2.1.videos.map Video.id)) ∧
     (some pathId ∉ vs.videos.map Video.id →
        (deleteVideoHandler pathId writeOk vs).1 = ApiResult.err 404 "Not found" ∧
        (deleteVideoHandler pathId writeOk vs).2.1 = vs)) := by
  constructor
  · constructor
    · intro hmem
      cases hrf : removeFirst (fun x => x.id == some pathId) s.tracks with
      | none =>
        exfalso
        obtain ⟨x, hx, hxid⟩ := List.mem_map.mp hmem
        have := (removeFirst_eq_none_iff _ _).mp hrf x hx
        rw [hxid] at this
        simp at this
      | some pr =>
        obtain ⟨r, rest⟩ := pr
        obtain ⟨l1, l2, hdec, hrest, hall, hpr⟩ := removeFirst_eq_some _ _ _ _ hrf
        have hrid : r.id = some pathId := by simpa using hpr
        refine ⟨r, l1, l2, hdec, hrid, ?_, ?_, ?_, ?_, ?_⟩
        · intro x hx heq
          have := hall x hx
          rw [heq] at this
          simp at this
        · simp [deleteTrackHandler, hrf]
        · simp [deleteTrackHandler, hrf, hrest]
        · simp only [deleteTrackHandler, hrf]
          rw [hrest, hdec]
          simp only [List.length_append, List.length_cons]
          omega
        · intro hcount
          simp only [deleteTrackHandler, hrf]
          have hmapdec : s.tracks.map Track.id =
              l1.map Track.id ++ some pathId :: l2.map Track.id := by
            rw [hdec]; simp [hrid]
          rw [hmapdec, List.count_append, List.count_cons_self] at hcount
          have h1 : (l1.map Track.id).count (some pathId) = 0 := by omega
          have h2 : (l2.map Track.id).count (some pathId) = 0 := by omega
          rw [hrest, List.map_append]
          intro hmem2
          rcases List.mem_append.mp hmem2 with hm | hm
          · exact absurd hm (List.count_eq_zero.mp h1)
          · exact absurd hm (List.count_eq_zero.mp h2)
    · intro hmem
      have hrf : removeFirst (fun x => x.id == some pathId) s.tracks = none := by
        apply (removeFirst_eq_none_iff _ _).mpr
        intro x hx
        by_contra hc
        have hx' : (x.id == some pathId) = true := by revert hc; cases h : x.id == some pathId <;> simp
        exact hmem (List.mem_map.mpr ⟨x, hx, by simpa using hx'⟩)
      constructor <;> simp [deleteTrackHandler, hrf]
  · constructor
    · intro hmem
      cases hrf : removeFirst (fun x => x.id == some pathId) vs.videos with
      | none =>
        exfalso
        obtain ⟨x, hx, hxid⟩ := List.mem_map.mp hmem
        have := (removeFirst_eq_none_iff _ _).mp hrf x hx
        rw [hxid] at this
        simp at this
      | some pr =>
        obtain ⟨r, rest⟩ := pr
        obtain ⟨l1, l2, hdec, hrest, hall, hpr⟩ := removeFirst_eq_some _ _ _ _ hrf
        have hrid : r.id = some pathId := by simpa using hpr
        refine ⟨r, l1, l2, hdec, hrid, ?_, ?_, ?_, ?_, ?_⟩
        · intro x hx heq
          have := hall x hx
          rw [heq] at this
          simp at this
        · simp [deleteVideoHandler, hrf]
        · simp [deleteVideoHandler, hrf, hrest]
        · simp only [deleteVideoHandler, hrf]
          rw [hrest, hdec]
          simp only [List.length_append, List.length_cons]
          omega
        · intro hcount
          simp only [deleteVideoHandler, hrf]
          have hmapdec : vs.videos.map Video.id =
              l1.map Video.id ++ some pathId :: l2.map Video.id := by
            rw [hdec]; simp [hrid]
          rw [hmapdec, List.count_append, List.count_cons_self] at hcount
          have h1 : (l1.map Video.id).count (some pathId) = 0 := by omega
          have h2 : (l2.map Video.id).count (some pathId) = 0 := by omega
          rw [hrest, List.map_append]
          intro hmem2
          rcases List.mem_append.mp hmem2 with hm | hm
          · exact absurd hm (List.count_eq_zero.mp h1)
          · exact absurd hm (List.count_eq_zero.mp h2)
    · intro hmem
      have hrf : removeFirst (fun x => x.id == some pathId) vs.videos = none := by
        apply (removeFirst_eq_none_iff _ _).mpr
        intro x hx
        by_contra hc
        have hx' : (x.id == some pathId) = true := by revert hc; cases h : x.id == some pathId <;> simp
        exact hmem (List.mem_map.mpr ⟨x, hx, by simpa using hx'⟩)
      constructor <;> simp [deleteVideoHandler, hrf]

theorem delete_contract_witness :
    ((deleteTrackHandler "zzz" true
        { tracks := [⟨some "1", some "a.mp3", some "Song", none, none, none, none⟩],
          file := FsFile.absent }).1 = ApiResult.err 404 "Not found" ∧
     (deleteTrackHandler "zzz" true
        { tracks := [⟨some "1", some "a.mp3", some "Song", none, none, none, none⟩],
          file := FsFile.absent }).2.1 =
       { tracks := [⟨some "1", some "a.mp3", some "Song", none, none, none, none⟩],
         file := FsFile.absent }) ∧
    (deleteTrackHandler "1" true
        { tracks := [⟨some "1", some "a.mp3", some "Song", none, none, none, none⟩],
          file := FsFile.absent }).2.1.tracks.length + 1 =
      ({ tracks := [⟨some "1", some "a.mp3", some "Song", none, none, none, none⟩],
         file := FsFile.absent } : TracksState).tracks.length ∧
    some "1" ∉
      ((deleteTrackHandler "1" true
          { tracks := [⟨some "1", some "a.mp3", some "Song", none, none, none, none⟩],
            file := FsFile.absent }).2.1.tracks.map Track.id) := by
  have h1 := delete_contract "1" true
    { tracks := [⟨some "1", some "a.mp3", some "Song", none, none, none, none⟩],
      file := FsFile.absent }
    { videos := [], file := FsFile.absent }
  have h2 := delete_contract "zzz" true
    { tracks := [⟨some "1", some "a.mp3", some "Song", none, none, none, none⟩],
      file := FsFile.absent }
    { videos := [], file := FsFile.absent }
  refine ⟨h2.1.2 (by decide), ?_, ?_⟩
  · obtain ⟨removed, l1, l2, _, _, _, _, _, hlen, _⟩ := h1.1.1 (by decide)
    exact hlen
  · obtain ⟨removed, l1, l2, _, _, _, _, _, _, habs⟩ := h1.1.1 (by decide)
    exact habs (by decide)

end PlayMusic

namespace PlayMusic

theorem strFalsy_false_of_some {o : Option String} {t : String}
    (h : o = some t) (ht : t ≠ "") : strFalsy o = false := by
  rw [h]
  simp [strFalsy]
  exact ht

theorem strFalsy_true_of_missing {o : Option String}
    (h : o = none ∨ o = some "") : strFalsy o = true := by
  rcases h with rfl | rfl <;> simp [strFalsy]

theorem postTracks_success_eq (newId : String) (writeOk : Bool) (b : TrackBody)
    (s : TracksState) (hu : strFalsy b.url = false) (ht : strFalsy b.title = false) :
    postTracksHandler newId writeOk b s =
      (ApiResult.ok 201 (mkTrack newId b),
       { tracks := s.tracks ++ [mkTrack newId b],
         file := (saveTracks writeOk (s.tracks ++ [mkTrack newId b]) s.file).1 },
       (saveTracks writeOk (s.tracks ++ [mkTrack newId b]) s.file).2) := by
  simp [postTracksHandler, hu, ht]

theorem postVideos_success_eq (newId nowIso : String) (writeOk : Bool) (b : VideoBody)
    (s : VideosState) (hv : strFalsy b.url = false ∨ strFalsy b.localUri = false)
    (ht : strFalsy b.title = false) :
    postVideosHandler newId nowIso writeOk b s =
      (ApiResult.ok 201 (mkVideo newId nowIso b),
       { videos := s.videos ++ [mkVideo newId nowIso b],
         file := (saveVideos writeOk (s.videos ++ [mkVideo newId nowIso b]) s.file).1 },
       (saveVideos writeOk (s.videos ++ [mkVideo newId nowIso b]) s.file).2) := by
  rcases hv with h | h <;> simp [postVideosHandler, h, ht]

/-- C3: POST /tracks with a missing or empty url, or a missing or empty
title, answers 400 with the message url and title are required, adds no
record, writes nothing, and logs no persistence error. -/
theorem post_tracks_validation (newId : String) (writeOk : Bool) (b : TrackBody)
    (s : TracksState)
    (h : b.url = none ∨ b.url = some "" ∨ b.title = none ∨ b.title = some "") :
    (postTracksHandler newId writeOk b s).1 =
      ApiResult.err 400 "url and title are required" ∧
    (postTracksHandler newId writeOk b s).2.1 = s ∧
    (postTracksHandler newId writeOk b s).2.2 = false := by
  have hcond : (strFalsy b.url || strFalsy b.title) = true := by
    rcases h with h | h | h | h
    · rw [strFalsy_true_of_missing (Or.inl h)]; rfl
    · rw [strFalsy_true_of_missing (Or.inr h)]; rfl
    · rw [strFalsy_true_of_missing (Or.inl h)]; simp
    · rw [strFalsy_true_of_missing (Or.inr h)]; simp
  refine ⟨?_, ?_, ?_⟩ <;> simp [postTracksHandler, hcond]

theorem post_tracks_validation_witness :
    (postTracksHandler "99-1" true ⟨some "a.mp3", none, none, none⟩
        { tracks := [], file := FsFile.absent }).1 =
      ApiResult.err 400 "url and title are required" ∧
    (postTracksHandler "99-1" true ⟨some "a.mp3", none, none, none⟩
        { tracks := [], file := FsFile.absent }).2.1 =
      { tracks := [], file := FsFile.absent } := by
  have h := post_tracks_validation "99-1" true ⟨some "a.mp3", none, none, none⟩
    { tracks := [], file := FsFile.absent } (Or.inr (Or.inr (Or.inl rfl)))
  exact ⟨h.1, h.2.1⟩

/-- C4: POST /videos answers 400 when title is missing or empty, answers
400 when url and localUri are both missing or empty, and answers 201
with the created record when title is present and non-empty and at least
one of url or localUri is present and non-empty. -/
theorem post_videos_validation (newId nowIso : String) (writeOk : Bool) (b : VideoBody)
    (vs : VideosState) :
    ((b.title = none ∨ b.title = some "") →
       ∃ msg, (postVideosHandler newId nowIso writeOk b vs).1 = ApiResult.err 400 msg ∧
         (postVideosHandler newId nowIso writeOk b vs).2.1 = vs) ∧
    (((b.url = none ∨ b.url = some "") ∧ (b.localUri = none ∨ b.localUri = some "")) →
       (postVideosHandler newId nowIso writeOk b vs).1 =
         ApiResult.err 400 "url or localUri is required" ∧
       (postVideosHandler newId nowIso writeOk b vs).2.1 = vs) ∧
    ((∃ t, b.title = some t ∧ t ≠ "") →
      ((∃ u, b.url = some u ∧ u ≠ "") ∨ (∃ u, b.localUri = some u ∧ u ≠ "")) →
       ∃ v, (postVideosHandler newId nowIso writeOk b vs).1 = ApiResult.ok 201 v ∧
         (postVideosHandler newId nowIso writeOk b vs).2.1.videos = vs.videos ++ [v]) := by
  refine ⟨?_, ?_, ?_⟩
  · intro ht
    have ht' : strFalsy b.title = true := strFalsy_true_of_missing ht
    by_cases hc : (strFalsy b.url && strFalsy b.localUri) = true
    · exact ⟨"url or localUri is required", by simp [postVideosHandler, hc]⟩
    · have hc' : (strFalsy b.url && strFalsy b.localUri) = false := by
        revert hc; cases strFalsy b.url <;> cases strFalsy b.localUri <;> simp
      exact ⟨"title is required", by simp [postVideosHandler, hc', ht']⟩
  · intro ⟨hu, hl⟩
    have hu' := strFalsy_true_of_missing hu
    have hl' := strFalsy_true_of_missing hl
    have hc : (strFalsy b.url && strFalsy b.localUri) = true := by rw [hu', hl']; rfl
    constructor <;> simp [postVideosHandler, hc]
  · intro ⟨t, htEq, htNe⟩ hor
    have ht' : strFalsy b.title = false := strFalsy_false_of_some htEq htNe
    have hv : strFalsy b.url = false ∨ strFalsy b.localUri = false := by
      rcases hor with ⟨u, hEq, hNe⟩ | ⟨u, hEq, hNe⟩
      · exact Or.inl (strFalsy_false_of_some hEq hNe)
      · exact Or.inr (strFalsy_false_of_some hEq hNe)
    rw [postVideos_success_eq newId nowIso writeOk b vs hv ht']
    exact ⟨mkVideo newId nowIso b, rfl, rfl⟩

theorem post_videos_validation_witness :
    (∃ msg, (postVideosHandler "99-1" "2026-01-01T00:00:00.000Z" true
        ⟨some "v.mp4", none, none, none, none, []⟩
        { videos := [], file := FsFile.absent }).1 = ApiResult.err 400 msg ∧
      (postVideosHandler "99-1" "2026-01-01T00:00:00.000Z" true
        ⟨some "v.mp4", none, none, none, none, []⟩
        { videos := [], file := FsFile.absent }).2.1 =
        { videos := [], file := FsFile.absent }) ∧
    ((postVideosHandler "99-1" "2026-01-01T00:00:00.000Z" true
        ⟨none, some "", some "Clip", none, none, []⟩
        { videos := [], file := FsFile.absent }).1 =
      ApiResult.err 400 "url or localUri is required") ∧
    (∃ v, (postVideosHandler "99-1" "2026-01-01T00:00:00.000Z" true
        ⟨some "v.mp4", none, some "Clip", none, none, []⟩
        { videos := [], file := FsFile.absent }).1 = ApiResult.ok 201 v) := by
  have h1 := post_videos_validation "99-1" "2026-01-01T00:00:00.000Z" true
    ⟨some "v.mp4", none, none, none, none, []⟩ { videos := [], file := FsFile.absent }
  have h2 := post_videos_validation "99-1" "2026-01-01T00:00:00.000Z" true
    ⟨none, some "", some "Clip", none, none, []⟩ { videos := [], file := FsFile.absent }
  have h3 := post_videos_validation "99-1" "2026-01-01T00:00:00.000Z" true
    ⟨some "v.mp4", none, some "Clip", none, none, []⟩ { videos := [], file := FsFile.absent }
  refine ⟨h1.1 (Or.inl rfl), (h2.2.1 ⟨Or.inl rfl, Or.inr rfl⟩).1, ?_⟩
  obtain ⟨v, hv, _⟩ := h3.2.2 ⟨"Clip", rfl, by decide⟩ (Or.inl ⟨"v.mp4", rfl, by decide⟩)
  exact ⟨v, hv⟩

end PlayMusic

namespace PlayMusic

theorem generateId_ne_empty (nowMs rand : Nat) : generateId nowMs rand ≠ "" := by
  intro h
  have hlen := congrArg String.length h
  unfold generateId at hlen
  rw [String.length_append, String.length_append] at hlen
  have h1 : ("-" : String).length = 1 := rfl
  have h2 : ("" : String).length = 0 := rfl
  rw [h1, h2] at hlen
  omega

theorem delete_tracks_nodup (pathId : String) (writeOk : Bool) (s : TracksState)
    (h : (s.tracks.map Track.id).Nodup) :
    ((deleteTrackHandler pathId writeOk s).2.1.tracks.map Track.id).Nodup := by
  cases hrf : removeFirst (fun x => x.id == some pathId) s.tracks with
  | none => simpa [deleteTrackHandler, hrf] using h
  | some pr =>
    obtain ⟨r, rest⟩ := pr
    obtain ⟨l1, l2, hdec, hrest, _, _⟩ := removeFirst_eq_some _ _ _ _ hrf
    simp only [deleteTrackHandler, hrf]
    have hsub : List.Sublist rest s.tracks := by
      rw [hrest, hdec]
      exact List.Sublist.append (List.Sublist.refl l1) (List.sublist_cons_self r l2)
    exact h.sublist (hsub.map Track.id)

theorem delete_videos_nodup (pathId : String) (writeOk : Bool) (vs : VideosState)
    (h : (vs.videos.map Video.id).Nodup) :
    ((deleteVideoHandler pathId writeOk vs).2.1.videos.map Video.id).Nodup := by
  cases hrf : removeFirst (fun x => x.id == some pathId) vs.videos with
  | none => simpa [deleteVideoHandler, hrf] using h
  | some pr =>
    obtain ⟨r, rest⟩ := pr
    obtain ⟨l1, l2, hdec, hrest, _, _⟩ := removeFirst_eq_some _ _ _ _ hrf
    simp only [deleteVideoHandler, hrf]
    have hsub : List.Sublist rest vs.videos := by
      rw [hrest, hdec]
      exact List.Sublist.append (List.Sublist.refl l1) (List.sublist_cons_self r l2)
    exact h.sublist (hsub.map Video.id)

/-- C5 counterexample: two creates in the same millisecond drawing the
same random value produce the same generated id and the handler performs
no uniqueness check, so the second created record's id equals an id
already present in the collection at the time of creation. -/
theorem create_id_collision_cex :
    (postTracksHandler (generateId 5 3) true ⟨some "a.mp3", some "Song", none, none⟩
        ((postTracksHandler (generateId 5 3) true ⟨some "a.mp3", some "Song", none, none⟩
            { tracks := [], file := FsFile.absent }).2.1)).1 =
      ApiResult.ok 201 (mkTrack (generateId 5 3) ⟨some "a.mp3", some "Song", none, none⟩) ∧
    (mkTrack (generateId 5 3) ⟨some "a.mp3", some "Song", none, none⟩).id ∈
      ((postTracksHandler (generateId 5 3) true ⟨some "a.mp3", some "Song", none, none⟩
          { tracks := [], file := FsFile.absent }).2.1.tracks.map Track.id) := by decide

/-- C5 (amended): a generated id is never the empty string; and whenever
the freshly generated id does not already occur in the collection, a
create preserves pairwise distinctness of ids, as does every delete
unconditionally.  Distinctness of the fresh id is not guaranteed by the
generator itself, which can repeat a timestamp-random pair. -/
theorem create_id_contract (nowMs rand : Nat) (nowIso pathId : String) (writeOk : Bool)
    (b : TrackBody) (vb : VideoBody) (s : TracksState) (vs : VideosState)
    (hfT : some (generateId nowMs rand) ∉ s.tracks.map Track.id)
    (hnT : (s.tracks.map Track.id).Nodup)
    (hfV : some (generateId nowMs rand) ∉ vs.videos.map Video.id)
    (hnV : (vs.videos.map Video.id).Nodup) :
    generateId nowMs rand ≠ "" ∧
    ((postTracksHandler (generateId nowMs rand) writeOk b s).2.1.tracks.map Track.id).Nodup ∧
    ((postVideosHandler (generateId nowMs rand) nowIso writeOk vb vs).2.1.videos.map
        Video.id).Nodup ∧
    ((deleteTrackHandler pathId writeOk s).2.1.tracks.map Track.id).Nodup ∧
    ((deleteVideoHandler pathId writeOk vs).2.1.videos.map Video.id).Nodup := by
  refine ⟨generateId_ne_empty nowMs rand, ?_, ?_,
    delete_tracks_nodup pathId writeOk s hnT, delete_videos_nodup pathId writeOk vs hnV⟩
  · by_cases hc : (strFalsy b.url || strFalsy b.title) = true
    · simpa [postTracksHandler, hc] using hnT
    · have hc' : (strFalsy b.url || strFalsy b.title) = false := by
        cases h2 : strFalsy b.url || strFalsy b.title with
        | false => rfl
        | true => exact absurd h2 hc
      obtain ⟨hu, ht⟩ := Bool.or_eq_false_iff.mp hc'
      rw [postTracks_success_eq (generateId nowMs rand) writeOk b s hu ht]
      show ((s.tracks ++ [mkTrack (generateId nowMs rand) b]).map Track.id).Nodup
      rw [List.map_append, List.nodup_append]
      refine ⟨hnT, by simp, ?_⟩
      intro a ha hb
      simp only [List.map_cons, List.map_nil, List.mem_singleton] at hb
      rw [hb] at ha
      exact hfT ha
  · by_cases hct : strFalsy vb.title = true
    · by_cases hc : (strFalsy vb.url && strFalsy vb.localUri) = true
      · simpa [postVideosHandler, hc] using hnV
      · have hc' : (strFalsy vb.url && strFalsy vb.localUri) = false := by
          cases h2 : strFalsy vb.url && strFalsy vb.localUri with
          | false => rfl
          | true => exact absurd h2 hc
        simpa [postVideosHandler, hc', hct] using hnV
    · by_cases hc : (strFalsy vb.url && strFalsy vb.localUri) = true
      · simpa [postVideosHandler, hc] using hnV
      · have hc' : (strFalsy vb.url && strFalsy vb.localUri) = false := by
          cases h2 : strFalsy vb.url && strFalsy vb.localUri with
          | false => rfl
          | true => exact absurd h2 hc
        have hct' : strFalsy vb.title = false := by
          cases h2 : strFalsy vb.title with
          | false => rfl
          | true => exact absurd h2 hct
        rw [postVideos_success_eq (generateId nowMs rand) nowIso writeOk vb vs
          (Bool.and_eq_false_iff.mp hc') hct']
        show ((vs.videos ++ [mkVideo (generateId nowMs rand) nowIso vb]).map Video.id).Nodup
        rw [List.map_append, List.nodup_append]
        refine ⟨hnV, by simp, ?_⟩
        intro a ha hb
        simp only [List.map_cons, List.map_nil, List.mem_singleton] at hb
        rw [hb] at ha
        exact hfV ha

theorem create_id_contract_witness :
    generateId 5 3 ≠ "" ∧
    ((postTracksHandler (generateId 5 3) true ⟨some "a.mp3", some "Song", none, none⟩
        { tracks := [], file := FsFile.absent }).2.1.tracks.map Track.id).Nodup := by
  have h := create_id_contract 5 3 "2026-01-01T00:00:00.000Z" "x" true
    ⟨some "a.mp3", some "Song", none, none⟩ ⟨some "v.mp4", none, some "Clip", none, none, []⟩
    { tracks := [], file := FsFile.absent } { videos := [], file := FsFile.absent }
    (by decide) (by decide) (by decide) (by decide)
  exact ⟨h.1, h.2.1⟩

/-- C6: a successful create appends the new record at the collection's
end leaving the prior records untouched, and LIST returns the full
in-memory sequence in insertion order with no pagination, for both
collections. -/
theorem create_append_list_contract (newId nowIso : String) (writeOk : Bool)
    (b : TrackBody) (vb : VideoBody) (s : TracksState) (vs : VideosState) :
    (strFalsy b.url = false → strFalsy b.title = false →
       ∃ t, (postTracksHandler newId writeOk b s).1 = ApiResult.ok 201 t ∧
         (postTracksHandler newId writeOk b s).2.1.tracks = s.tracks ++ [t]) ∧
    (strFalsy vb.title = false →
      (strFalsy vb.url = false ∨ strFalsy vb.localUri = false) →
       ∃ v, (postVideosHandler newId nowIso writeOk vb vs).1 = ApiResult.ok 201 v ∧
         (postVideosHandler newId nowIso writeOk vb vs).2.1.videos = vs.videos ++ [v]) ∧
    listTracksHandler s = ApiResult.ok 200 s.tracks ∧
    listVideosHandler vs = ApiResult.ok 200 vs.videos := by
  refine ⟨?_, ?_, rfl, rfl⟩
  · intro hu ht
    rw [postTracks_success_eq newId writeOk b s hu ht]
    exact ⟨mkTrack newId b, rfl, rfl⟩
  · intro ht hv
    rw [postVideos_success_eq newId nowIso writeOk vb vs hv ht]
    exact ⟨mkVideo newId nowIso vb, rfl, rfl⟩

theorem create_append_list_contract_witness :
    (∃ t, (postTracksHandler "7-7" true ⟨some "a.mp3", some "Song", none, none⟩
        { tracks := [], file := FsFile.absent }).1 = ApiResult.ok 201 t ∧
      (postTracksHandler "7-7" true ⟨some "a.mp3", some "Song", none, none⟩
        { tracks := [], file := FsFile.absent }).2.1.tracks = [] ++ [t]) ∧
    listTracksHandler { tracks := [], file := FsFile.absent } = ApiResult.ok 200 [] := by
  have h := create_append_list_contract "7-7" "2026-01-01T00:00:00.000Z" true
    ⟨some "a.mp3", some "Song", none, none⟩ ⟨some "v.mp4", none, some "Clip", none, none, []⟩
    { tracks := [], file := FsFile.absent } { videos := [], file := FsFile.absent }
  exact ⟨h.1 (by decide) (by decide), h.2.2.1⟩

/-- C7 counterexample: when the generated id collides with the id of a
record already stored, GET with the returned id answers the earlier
record, whose fields differ from the ones just submitted. -/
theorem get_after_post_stale_cex :
    (postTracksHandler (generateId 5 3) true ⟨some "new.mp3", some "New", none, none⟩
        { tracks := [⟨some (generateId 5 3), some "old.mp3", some "Old", none, none, none,
            none⟩],
          file := FsFile.absent }).1 =
      ApiResult.ok 201 (mkTrack (generateId 5 3) ⟨some "new.mp3", some "New", none, none⟩) ∧
    getTrackHandler (generateId 5 3)
        (postTracksHandler (generateId 5 3) true ⟨some "new.mp3", some "New", none, none⟩
          { tracks := [⟨some (generateId 5 3), some "old.mp3", some "Old", none, none, none,
              none⟩],
            file := FsFile.absent }).2.1 =
      ApiResult.ok 200
        ⟨some (generateId 5 3), some "old.mp3", some "Old", none, none, none, none⟩ ∧
    (⟨some (generateId 5 3), some "old.mp3", some "Old", none, none, none, none⟩ : Track) ≠
      mkTrack (generateId 5 3) ⟨some "new.mp3", some "New", none, none⟩ := by decide

/-- C7 (amended): provided the generated id does not already occur in
the collection, a GET /tracks/:id with the id returned by a successful
POST /tracks, performed with no intervening operations, answers 200 with
the very record just created, carrying the submitted url, title, artist
and artwork plus the server-generated id. -/
theorem get_after_post_fresh (newId : String) (writeOk : Bool) (b : TrackBody)
    (s : TracksState) (hu : strFalsy b.url = false) (ht : strFalsy b.title = false)
    (hfresh : some newId ∉ s.tracks.map Track.id) :
    ∃ t, (postTracksHandler newId writeOk b s).1 = ApiResult.ok 201 t ∧
      getTrackHandler newId (postTracksHandler newId writeOk b s).2.1 =
        ApiResult.ok 200 t ∧
      t.id = some newId ∧ t.url = b.url ∧ t.title = b.title ∧
      t.artist = b.artist ∧ t.artwork = b.artwork := by
  rw [postTracks_success_eq newId writeOk b s hu ht]
  refine ⟨mkTrack newId b, rfl, ?_, rfl, rfl, rfl, rfl, rfl⟩
  unfold getTrackHandler
  have hall : ∀ x ∈ s.tracks, (x.id == some newId) = false := by
    intro x hx
    by_contra hc
    have hx2 : (x.id == some newId) = true := by
      revert hc; cases h2 : x.id == some newId <;> simp
    exact hfresh (List.mem_map.mpr ⟨x, hx, by simpa using hx2⟩)
  have hfind : (s.tracks ++ [mkTrack newId b]).find? (fun x => x.id == some newId) =
      some (mkTrack newId b) := by
    rw [find?_append_single _ (mkTrack newId b) s.tracks hall]
    simp [mkTrack]
  simp [hfind]

theorem get_after_post_fresh_witness :
    ∃ t, (postTracksHandler "7-7" true ⟨some "a.mp3", some "Song", none, none⟩
        { tracks := [], file := FsFile.absent }).1 = ApiResult.ok 201 t ∧
      getTrackHandler "7-7" (postTracksHandler "7-7" true
          ⟨some "a.mp3", some "Song", none, none⟩
          { tracks := [], file := FsFile.absent }).2.1 = ApiResult.ok 200 t ∧
      t.id = some "7-7" ∧ t.url = some "a.mp3" ∧ t.title = some "Song" ∧
      t.artist = none ∧ t.artwork = none :=
  get_after_post_fresh "7-7" true ⟨some "a.mp3", some "Song", none, none⟩
    { tracks := [], file := FsFile.absent } (by decide) (by decide) (by decide)

end PlayMusic

namespace PlayMusic

/-- C8 counterexample: the seed mapping spreads the entry after the
generated id, so a seed entry already carrying an id keeps it and the
freshly generated id is discarded, against the claim that every seed
entry is given a freshly generated id. -/
theorem seed_id_override_cex :
    ((loadTracks (fun _ => "fresh") true FsFile.absent
        (FsFile.parsed [⟨some "keep", none, some "Song", none, none, none, none⟩])).1.map
        Track.id = [some "keep"]) ∧
    ("keep" : String) ≠ "fresh" := by decide

/-- C8 (amended): when the persisted tracks file is absent or malformed
the loader falls back to the seed file; a seed entry lacking an id
receives the freshly generated id while an entry already carrying one
keeps it; the resulting sequence is written back to the persisted file
and returned; when the seed file is also absent or malformed the result
is the empty sequence; malformed persisted JSON is handled identically
to a missing file. -/
theorem loadTracks_contract (genId : Nat → String) (writeOk : Bool)
    (seedFile : FsFile (List Track)) (ts arr : List Track) :
    (loadTracks genId writeOk FsFile.malformed seedFile =
       loadTracks genId writeOk FsFile.absent seedFile) ∧
    (loadTracks genId writeOk (FsFile.parsed ts) seedFile = (ts, none)) ∧
    ((loadTracks genId true FsFile.absent (FsFile.parsed arr)).2 =
       some (loadTracks genId true FsFile.absent (FsFile.parsed arr)).1) ∧
    ((loadTracks genId true FsFile.absent (FsFile.parsed arr)).1.length = arr.length) ∧
    (∀ (i : Nat) (t : Track), arr[i]? = some t → t.id = none →
       (loadTracks genId true FsFile.absent (FsFile.parsed arr)).1[i]? =
         some { t with id := some (genId i) }) ∧
    (∀ (i : Nat) (t : Track) (x : String), arr[i]? = some t → t.id = some x →
       (loadTracks genId true FsFile.absent (FsFile.parsed arr)).1[i]? = some t) ∧
    (loadTracks genId writeOk FsFile.absent FsFile.absent = ([], none)) ∧
    (loadTracks genId writeOk FsFile.absent FsFile.malformed = ([], none)) := by
  refine ⟨?_, rfl, rfl, ?_, ?_, ?_, rfl, rfl⟩
  · cases seedFile <;> rfl
  · show (arr.enum.map fun p => ensureId (genId p.1) p.2).length = arr.length
    rw [List.length_map, List.enum_length]
  · intro i t hit hid
    show (arr.enum.map fun p => ensureId (genId p.1) p.2)[i]? = _
    rw [List.getElem?_map, List.getElem?_enum, hit]
    simp [ensureId, hid]
  · intro i t x hit hid
    show (arr.enum.map fun p => ensureId (genId p.1) p.2)[i]? = _
    rw [List.getElem?_map, List.getElem?_enum, hit]
    cases t with
    | mk tid url title artist artwork playlist rating =>
      simp only at hid
      simp [ensureId, hid]

theorem loadTracks_contract_witness :
    (loadTracks (fun _ => "fresh") true FsFile.malformed FsFile.absent =
       loadTracks (fun _ => "fresh") true FsFile.absent FsFile.absent) ∧
    ((loadTracks (fun _ => "fresh") true FsFile.absent
        (FsFile.parsed [⟨none, none, some "Seed", none, none, none, none⟩])).1[0]? =
      some ⟨some "fresh", none, some "Seed", none, none, none, none⟩) := by
  have h0 := loadTracks_contract (fun _ => "fresh") true FsFile.absent [] []
  have h := loadTracks_contract (fun _ => "fresh") true FsFile.absent []
    [⟨none, none, some "Seed", none, none, none, none⟩]
  refine ⟨h0.1, ?_⟩
  have h2 := h.2.2.2.2.1 0 ⟨none, none, some "Seed", none, none, none, none⟩ rfl rfl
  exact h2

/-- C9: a failed write of the backing file is swallowed: for create and
delete on both collections the response and the resulting in-memory
sequence are identical whether the write succeeds or fails, the
in-memory mutation is not rolled back, the backing file keeps its prior
content, and after a mutation with a failed write the error is logged. -/
theorem persistence_failure_swallowed (newId nowIso pathId : String) (b : TrackBody)
    (vb : VideoBody) (s : TracksState) (vs : VideosState) :
    ((postTracksHandler newId false b s).1 = (postTracksHandler newId true b s).1 ∧
     (postTracksHandler newId false b s).2.1.tracks =
       (postTracksHandler newId true b s).2.1.tracks) ∧
    ((deleteTrackHandler pathId false s).1 = (deleteTrackHandler pathId true s).1 ∧
     (deleteTrackHandler pathId false s).2.1.tracks =
       (deleteTrackHandler pathId true s).2.1.tracks) ∧
    ((postVideosHandler newId nowIso false vb vs).1 =
       (postVideosHandler newId nowIso true vb vs).1 ∧
     (postVideosHandler newId nowIso false vb vs).2.1.videos =
       (postVideosHandler newId nowIso true vb vs).2.1.videos) ∧
    ((deleteVideoHandler pathId false vs).1 = (deleteVideoHandler pathId true vs).1 ∧
     (deleteVideoHandler pathId false vs).2.1.videos =
       (deleteVideoHandler pathId true vs).2.1.videos) ∧
    (strFalsy b.url = false → strFalsy b.title = false →
       (postTracksHandler newId false b s).1 = ApiResult.ok 201 (mkTrack newId b) ∧
       (postTracksHandler newId false b s).2.1.tracks = s.tracks ++ [mkTrack newId b] ∧
       (postTracksHandler newId false b s).2.1.file = s.file ∧
       (postTracksHandler newId false b s).2.2 = true) ∧
    (some pathId ∈ s.tracks.map Track.id →
       ∃ removed, (deleteTrackHandler pathId false s).1 = ApiResult.ok 200 removed ∧
         (deleteTrackHandler pathId false s).2.1.file = s.file ∧
         (deleteTrackHandler pathId false s).2.2 = true) := by
  refine ⟨?_, ?_, ?_, ?_, ?_, ?_⟩
  · by_cases hc : (strFalsy b.url || strFalsy b.title) = true
    · constructor <;> simp [postTracksHandler, hc]
    · have hc' : (strFalsy b.url || strFalsy b.title) = false := by
        cases h2 : strFalsy b.url || strFalsy b.title with
        | false => rfl
        | true => exact absurd h2 hc
      constructor <;> simp [postTracksHandler, hc', saveTracks]
  · cases hrf : removeFirst (fun x => x.id == some pathId) s.tracks with
    | none => constructor <;> simp [deleteTrackHandler, hrf]
    | some pr =>
      obtain ⟨r, rest⟩ := pr
      constructor <;> simp [deleteTrackHandler, hrf, saveTracks]
  · by_cases hc : (strFalsy vb.url && strFalsy vb.localUri) = true
    · constructor <;> simp [postVideosHandler, hc]
    · have hc' : (strFalsy vb.url && strFalsy vb.localUri) = false := by
        cases h2 : strFalsy vb.url && strFalsy vb.localUri with
        | false => rfl
        | true => exact absurd h2 hc
      by_cases hct : strFalsy vb.title = true
      · constructor <;> simp [postVideosHandler, hc', hct]
      · have hct' : strFalsy vb.title = false := by
          cases h2 : strFalsy vb.title with
          | false => rfl
          | true => exact absurd h2 hct
        constructor <;> simp [postVideosHandler, hc', hct', saveVideos]
  · cases hrf : removeFirst (fun x => x.id == some pathId) vs.videos with
    | none => constructor <;> simp [deleteVideoHandler, hrf]
    | some pr =>
      obtain ⟨r, rest⟩ := pr
      constructor <;> simp [deleteVideoHandler, hrf, saveVideos]
  · intro hu ht
    rw [postTracks_success_eq newId false b s hu ht]
    exact ⟨rfl, rfl, rfl, rfl⟩
  · intro hmem
    cases hrf : removeFirst (fun x => x.id == some pathId) s.tracks with
    | none =>
      exfalso
      obtain ⟨x, hx, hxid⟩ := List.mem_map.mp hmem
      have := (removeFirst_eq_none_iff _ _).mp hrf x hx
      rw [hxid] at this
      simp at this
    | some pr =>
      obtain ⟨r, rest⟩ := pr
      exact ⟨r, by simp [deleteTrackHandler, hrf],
        by simp [deleteTrackHandler, hrf, saveTracks],
        by simp [deleteTrackHandler, hrf, saveTracks]⟩

theorem persistence_failure_swallowed_witness :
    ((postTracksHandler "7-7" false ⟨some "a.mp3", some "Song", none, none⟩
        { tracks := [], file := FsFile.absent }).1 =
      (postTracksHandler "7-7" true ⟨some "a.mp3", some "Song", none, none⟩
        { tracks := [], file := FsFile.absent }).1) ∧
    ((postTracksHandler "7-7" false ⟨some "a.mp3", some "Song", none, none⟩
        { tracks := [], file := FsFile.absent }).2.2 = true) := by
  have h := persistence_failure_swallowed "7-7" "2026-01-01T00:00:00.000Z" "x"
    ⟨some "a.mp3", some "Song", none, none⟩ ⟨some "v.mp4", none, some "Clip", none, none, []⟩
    { tracks := [], file := FsFile.absent } { videos := [], file := FsFile.absent }
  exact ⟨h.1.1, (h.2.2.2.2.1 (by decide) (by decide)).2.2.2⟩

/-- C10: for a body accepted by POST /videos, submitted fields outside
the five destructured ones do not influence the outcome; the created
record carries the supplied timestamp as createdAt and the generated id,
is appended to the store, and each falsy optional field is stored as
null: a duration of 0 and an empty-string or missing url, localUri or
thumbnail all become null. -/
theorem video_create_shape (newId nowIso : String) (writeOk : Bool) (b : VideoBody)
    (vs : VideosState) :
    (∀ e1 e2, postVideosHandler newId nowIso writeOk { b with extra := e1 } vs =
        postVideosHandler newId nowIso writeOk { b with extra := e2 } vs) ∧
    (∀ v, (postVideosHandler newId nowIso writeOk b vs).1 = ApiResult.ok 201 v →
       v.createdAt = some nowIso ∧ v.id = some newId ∧ v.title = b.title ∧
       (postVideosHandler newId nowIso writeOk b vs).2.1.videos = vs.videos ++ [v] ∧
       ((b.duration = some 0 ∨ b.duration = none) → v.duration = none) ∧
       ((b.url = some "" ∨ b.url = none) → v.url = none) ∧
       ((b.localUri = some "" ∨ b.localUri = none) → v.localUri = none) ∧
       ((b.thumbnail = some "" ∨ b.thumbnail = none) → v.thumbnail = none)) := by
  constructor
  · intro e1 e2
    cases b
    rfl
  · intro v hv
    by_cases hc : (strFalsy b.url && strFalsy b.localUri) = true
    · simp [postVideosHandler, hc] at hv
    · have hc' : (strFalsy b.url && strFalsy b.localUri) = false := by
        cases h2 : strFalsy b.url && strFalsy b.localUri with
        | false => rfl
        | true => exact absurd h2 hc
      by_cases hct : strFalsy b.title = true
      · simp [postVideosHandler, hc', hct] at hv
      · have hct' : strFalsy b.title = false := by
          cases h2 : strFalsy b.title with
          | false => rfl
          | true => exact absurd h2 hct
        rw [postVideos_success_eq newId nowIso writeOk b vs
          (Bool.and_eq_false_iff.mp hc') hct'] at hv
        simp only [ApiResult.ok.injEq] at hv
        obtain ⟨-, rfl⟩ := hv
        refine ⟨rfl, rfl, rfl, ?_, ?_, ?_, ?_, ?_⟩
        · rw [postVideos_success_eq newId nowIso writeOk b vs
            (Bool.and_eq_false_iff.mp hc') hct']
        · rintro (h | h) <;> simp [mkVideo, intOrNull, h]
        · rintro (h | h) <;> simp [mkVideo, strOrNull, h]
        · rintro (h | h) <;> simp [mkVideo, strOrNull, h]
        · rintro (h | h) <;> simp [mkVideo, strOrNull, h]

theorem video_create_shape_witness :
    (postVideosHandler "9-9" "2026-01-01T00:00:00.000Z" true
        ⟨some "", some "file:v.mp4", some "Clip", some "", some 0, [("a", "1")]⟩
        { videos := [], file := FsFile.absent } =
      postVideosHandler "9-9" "2026-01-01T00:00:00.000Z" true
        ⟨some "", some "file:v.mp4", some "Clip", some "", some 0, []⟩
        { videos := [], file := FsFile.absent }) ∧
    (mkVideo "9-9" "2026-01-01T00:00:00.000Z"
        ⟨some "", some "file:v.mp4", some "Clip", some "", some 0, []⟩).duration = none ∧
    (mkVideo "9-9" "2026-01-01T00:00:00.000Z"
        ⟨some "", some "file:v.mp4", some "Clip", some "", some 0, []⟩).url = none ∧
    (mkVideo "9-9" "2026-01-01T00:00:00.000Z"
        ⟨some "", some "file:v.mp4", some "Clip", some "", some 0, []⟩).thumbnail = none ∧
    (mkVideo "9-9" "2026-01-01T00:00:00.000Z"
        ⟨some "", some "file:v.mp4", some "Clip", some "", some 0, []⟩).createdAt =
      some "2026-01-01T00:00:00.000Z" := by
  have h := video_create_shape "9-9" "2026-01-01T00:00:00.000Z" true
    ⟨some "", some "file:v.mp4", some "Clip", some "", some 0, []⟩
    { videos := [], file := FsFile.absent }
  have h2 := h.2 (mkVideo "9-9" "2026-01-01T00:00:00.000Z"
    ⟨some "", some "file:v.mp4", some "Clip", some "", some 0, []⟩) (by decide)
  exact ⟨h.1 [("a", "1")] [], h2.2.2.2.2.1 (Or.inl rfl), h2.2.2.2.2.2.1 (Or.inl rfl),
    h2.2.2.2.2.2.2.2 (Or.inl rfl), h2.1⟩

end PlayMusic
